import Mathlib

/-!
# Verification of the prefect-slurm scheduler backend

Shallow embedding of `src/prefect_slurm/slurm.py`: the SLURM job status
enumeration, the CLI-based scheduler backend (submit / status / kill command
rendering and output parsing), the infrastructure-PID codec, and the job
lifecycle monitor (`_watch_job`).

Python strings are modelled as `List Char`; fallible Python code (code that
may raise) is modelled with `Option`.
-/

/-- Models `SlurmJobStatus` (`slurm.py`, lines 18-30): the states of a
SLURM job as seen by this system. -/
inductive SlurmJobStatus where
  | COMPLETED
  | RUNNING
  | FAILED
  | PREEMPTED
  | PENDING
  | UNDEFINED
  | UNKNOWN
  deriving DecidableEq, Repr

/-- Models `asyncssh.SSHCompletedProcess` as consumed by the backend:
the result of one remote command (exit status, stdout, stderr). -/
structure RemoteCommandResult where
  exit_status : Int
  stdout : List Char
  stderr : List Char
  deriving DecidableEq, Repr

/-! ## Python string primitives

The backend parses command output with `str.strip`, `str.split` (both the
whitespace and the single-separator form) and `int(...)`.  These are
modelled here over `List Char`, restricted to ASCII input (the scheduler
protocol is ASCII). -/

/-- The ASCII whitespace characters recognised by Python's `str.strip` /
`str.split`: space, tab, newline, carriage return, vertical tab, form feed. -/
def isPyWs (c : Char) : Bool :=
  c = ' ' || c = '\t' || c = '\n' || c = '\r' || c = Char.ofNat 11 || c = Char.ofNat 12

/-- Models Python `str.strip()` (no argument): drop leading and trailing
whitespace. -/
def pyStrip (s : List Char) : List Char :=
  ((s.dropWhile isPyWs).reverse.dropWhile isPyWs).reverse

/-- Accumulator for the whitespace split: `acc` holds the current word,
reversed. -/
def pySplitWsAux : List Char → List Char → List (List Char)
  | [], acc => if acc.isEmpty then [] else [acc.reverse]
  | c :: cs, acc =>
    if isPyWs c then
      if acc.isEmpty then pySplitWsAux cs [] else acc.reverse :: pySplitWsAux cs []
    else pySplitWsAux cs (c :: acc)

/-- Models Python `str.split()` (no argument): split on runs of whitespace,
discarding empty tokens. -/
def pySplitWs (s : List Char) : List (List Char) :=
  pySplitWsAux s []

/-- Models Python `str.split(sep)` for a one-character separator: split on
every occurrence of `sep`, keeping empty segments (`"".split(":") = [""]`). -/
def splitOnCh (sep : Char) : List Char → List (List Char)
  | [] => [[]]
  | c :: cs =>
    match splitOnCh sep cs with
    | [] => [[]]
    | g :: gs => if c = sep then [] :: g :: gs else (c :: g) :: gs

/-- Numeric value of an ASCII digit character. -/
def digVal (c : Char) : Nat := c.toNat - '0'.toNat

/-- Digit-run scanner of Python `int(...)`: after a first digit has been
consumed into `acc`, accept further digits, with single underscores allowed
between digits (CPython's integer-literal grammar). -/
def pyIntDigitsGo (acc : Nat) : List Char → Option Nat
  | [] => some acc
  | c :: cs =>
    if c.isDigit then pyIntDigitsGo (10 * acc + digVal c) cs
    else if c = '_' ∧ (cs.headD ' ').isDigit then pyIntDigitsGo acc cs
    else none

/-- The digit part of Python `int(...)`: a nonempty digit string, single
underscores allowed between digits. -/
def pyIntDigits : List Char → Option Nat
  | [] => none
  | c :: cs => if c.isDigit then pyIntDigitsGo (digVal c) cs else none

/-- Models Python `int(s)` on ASCII input: strip whitespace, optional sign,
then a nonempty digit string (underscores allowed between digits); `none`
models the `ValueError` raised on any other input. -/
def pyInt (s : List Char) : Option Int :=
  match pyStrip s with
  | [] => none
  | c :: cs =>
    if c = '+' then (pyIntDigits cs).map Int.ofNat
    else if c = '-' then (pyIntDigits cs).map (fun n => -(n : Int))
    else (pyIntDigits (c :: cs)).map Int.ofNat

/-- Models Python `str(n)` for a natural number: decimal rendering. -/
def pyStrNat (n : Nat) : List Char :=
  if n = 0 then ['0'] else ((Nat.digits 10 n).map Nat.digitChar).reverse

/-- Models Python `str(n)` for an arbitrary integer. -/
def pyStrInt : Int → List Char
  | .ofNat n => pyStrNat n
  | .negSucc n => '-' :: pyStrNat (n + 1)

/-! ## CLIBasedSlurmBackend: command rendering -/

/-- Models `CLIBasedSlurmBackend._submit_command` (lines 172-185): the
ordered mapping `slurm_kwargs` is rendered to `--k` (value `None`) or
`--k=v` flags in insertion order, after `sbatch --parsable`. -/
def submit_command (slurm_kwargs : List (List Char × Option (List Char))) : List Char :=
  let args := slurm_kwargs.map fun kv =>
    match kv.2 with
    | none => "--".toList ++ kv.1
    | some v => "--".toList ++ kv.1 ++ "=".toList ++ v
  List.intercalate " ".toList ("sbatch".toList :: "--parsable".toList :: args)

/-- Models `CLIBasedSlurmBackend._kill_command` (lines 187-194): the source
is `f"scancel ${jobid}"`, whose f-string interpolation yields a literal `$`
followed by the decimal job id. -/
def kill_command (jobid : Int) : List Char :=
  "scancel $".toList ++ pyStrInt jobid

/-- Models `CLIBasedSlurmBackend._status_command` (lines 196-203). -/
def status_command (jobid : Int) : List Char :=
  "squeue --job=".toList ++ pyStrInt jobid ++ " --Format=State,exit_code --noheader".toList

/-! ## CLIBasedSlurmBackend: output parsing -/

/-- The status-token mapping embedded in `CLIBasedSlurmBackend.status`
(lines 137-148): the chain of case-sensitive exact comparisons on the first
stdout token; every unrecognised token is `UNKNOWN`. -/
def statusTokenMap (status : List Char) : SlurmJobStatus :=
  if status = "PENDING".toList then .PENDING
  else if status = "COMPLETED".toList then .COMPLETED
  else if status = "PREEMPTED".toList then .PREEMPTED
  else if status = "FAILED".toList then .FAILED
  else if status = "RUNNING".toList then .RUNNING
  else .UNKNOWN

/-- Models `CLIBasedSlurmBackend.status` (lines 116-150) applied to the
result of the remote `squeue` command: non-zero exit status yields
`UNDEFINED`; otherwise the first two whitespace tokens of stdout are
destructured (a `ValueError` from too few tokens is caught and yields
`UNDEFINED`) and the first, stripped, goes through the token mapping. -/
def statusOfResult (result : RemoteCommandResult) : SlurmJobStatus :=
  if result.exit_status ≠ 0 then .UNDEFINED
  else
    match pySplitWs result.stdout with
    | status :: _exit_code :: _ => statusTokenMap (pyStrip status)
    | _ => .UNDEFINED

/-- Models the parsing step of `CLIBasedSlurmBackend.submit` (lines 82-101):
`int(result.stdout.strip())`; `none` models the `ValueError` raised when the
stripped stdout is not a valid integer. -/
def submitResult (result : RemoteCommandResult) : Option Int :=
  pyInt (pyStrip result.stdout)

/-! ## SlurmJob: infrastructure-PID codec -/

/-- Models `SlurmJob._get_infrastructure_pid` (lines 433-440):
`f"{self.host}:{jobid}"`. -/
def get_infrastructure_pid (host : List Char) (jobid : Int) : List Char :=
  host ++ ':' :: pyStrInt jobid

/-- Models `SlurmJob._parse_infrastructure_pid` (lines 442-451):
`hostname, pid = infrastructure_pid.split(":")` followed by `int(pid)`;
`none` models the `ValueError` raised when the split does not yield exactly
two parts or the second part is not an integer. -/
def parse_infrastructure_pid (infrastructure_pid : List Char) : Option (List Char × Int) :=
  match splitOnCh ':' infrastructure_pid with
  | [hostname, pid] => (pyInt pid).map fun n => (hostname, n)
  | _ => none

/-! ## SlurmJob._watch_job: the lifecycle monitor

`_watch_job` (lines 453-511) is a polling loop.  One iteration is modelled
by `watchStep`, acting on the polled status, the `submitted` flag, and the
elapsed time since `startWatching`; the whole loop by `watchJob`, consuming
a script of observations `(status, time-of-poll)`.  `none` models a script
that ends before the loop reaches a terminal state (the real loop would keep
polling). -/

/-- What one iteration of the `_watch_job` loop does next: re-poll
immediately (`continue` in the grace window), return a terminal exit code,
or sleep one polling interval and re-poll. -/
inductive WatchAction where
  | repoll
  | finish (code : Int)
  | sleepRepoll
  deriving DecidableEq, Repr

/-- One iteration of the `_watch_job` loop (lines 477-508): given the polled
status, the `submitted` flag and the elapsed seconds since `startWatching`,
produce the action taken and the new `submitted` flag. -/
def watchStep (status : SlurmJobStatus) (submitted : Bool)
    (elapsed polling_seconds : Nat) : WatchAction × Bool :=
  if status = .UNDEFINED ∧ submitted = false then
    if elapsed < polling_seconds then (.repoll, submitted)
    else (.finish (-1), submitted)
  else
    if status = .UNDEFINED ∨ status = .COMPLETED then (.finish 0, true)
    else if status = .FAILED then (.finish (-1), true)
    else (.sleepRepoll, true)

/-- The `_watch_job` loop run over a script of observations: each entry is
the status returned by `backend.status` together with the value of
`time.time()` at that poll. -/
def watchJob (script : List (SlurmJobStatus × Nat)) (startWatching : Nat)
    (polling_seconds : Nat) (submitted : Bool) : Option Int :=
  match script with
  | [] => none
  | (status, t) :: rest =>
    match watchStep status submitted (t - startWatching) polling_seconds with
    | (.finish code, _) => some code
    | (_, submitted2) => watchJob rest startWatching polling_seconds submitted2

/-! ## Helper lemmas: stripping -/

theorem dropWhile_eq_self_of_not (p : Char → Bool) (s : List Char)
    (h : ∀ c ∈ s, p c = false) : s.dropWhile p = s := by
  cases s with
  | nil => rfl
  | cons a l => rw [List.dropWhile_cons, h a (by simp)]; simp

theorem pyStrip_of_no_ws (s : List Char) (h : ∀ c ∈ s, isPyWs c = false) :
    pyStrip s = s := by
  unfold pyStrip
  rw [dropWhile_eq_self_of_not _ _ h,
    dropWhile_eq_self_of_not _ _ (fun c hc => h c (List.mem_reverse.mp hc)),
    List.reverse_reverse]

/-! ## Helper lemmas: digit characters -/

theorem digitChar_isDigit {d : Nat} (h : d < 10) : (Nat.digitChar d).isDigit = true := by
  interval_cases d <;> decide

theorem digVal_digitChar {d : Nat} (h : d < 10) : digVal (Nat.digitChar d) = d := by
  interval_cases d <;> decide

theorem ne_of_isDigit {c : Char} (h : c.isDigit = true) (c2 : Char)
    (h2 : c2.isDigit = false) : c ≠ c2 := by
  rintro rfl
  rw [h] at h2
  exact Bool.noConfusion h2

theorem isPyWs_of_isDigit {c : Char} (h : c.isDigit = true) : isPyWs c = false := by
  cases hw : isPyWs c with
  | false => rfl
  | true =>
    exfalso
    simp only [isPyWs, Bool.or_eq_true, decide_eq_true_eq] at hw
    rcases hw with ((((rfl | rfl) | rfl) | rfl) | rfl) | rfl <;> exact absurd h (by decide)

/-! ## Helper lemmas: the `pyInt` / `pyStrNat` round trip -/

theorem pyIntDigitsGo_digits (l : List Nat) (hl : ∀ d ∈ l, d < 10) (acc : Nat) :
    pyIntDigitsGo acc (l.map Nat.digitChar) =
      some (l.foldl (fun a d => 10 * a + d) acc) := by
  induction l generalizing acc with
  | nil => rfl
  | cons d ds ih =>
    have hd : d < 10 := hl d (by simp)
    simp only [List.map_cons, pyIntDigitsGo, digitChar_isDigit hd, if_true,
      digVal_digitChar hd, List.foldl_cons]
    exact ih (fun x hx => hl x (by simp [hx])) _

theorem foldl_reverse_ofDigits (l : List Nat) (a : Nat) :
    l.reverse.foldl (fun x d => 10 * x + d) a = a * 10 ^ l.length + Nat.ofDigits 10 l := by
  induction l generalizing a with
  | nil => simp
  | cons d ds ih =>
    simp only [List.reverse_cons, List.foldl_append, ih, List.foldl_cons, List.foldl_nil,
      Nat.ofDigits_cons, List.length_cons]
    ring

theorem mem_pyStrNat_isDigit (n : Nat) : ∀ c ∈ pyStrNat n, c.isDigit = true := by
  intro c hc
  unfold pyStrNat at hc
  split at hc
  · simp only [List.mem_singleton] at hc
    subst hc
    decide
  · rw [List.mem_reverse] at hc
    obtain ⟨d, hd, rfl⟩ := List.mem_map.mp hc
    exact digitChar_isDigit (Nat.digits_lt_base (by norm_num) hd)

theorem pyStrNat_ne_nil (n : Nat) : pyStrNat n ≠ [] := by
  unfold pyStrNat
  split
  · simp
  · simp only [ne_eq, List.reverse_eq_nil_iff, List.map_eq_nil_iff]
    exact Nat.digits_ne_nil_iff_ne_zero.mpr (by assumption)

theorem pyIntDigits_pyStrNat (n : Nat) : pyIntDigits (pyStrNat n) = some n := by
  by_cases h0 : n = 0
  · subst h0
    rfl
  · have hne : (Nat.digits 10 n).reverse ≠ [] := by
      simpa using Nat.digits_ne_nil_iff_ne_zero.mpr h0
    obtain ⟨r, rs, hr⟩ := List.exists_cons_of_ne_nil hne
    have hmem : ∀ d ∈ r :: rs, d < 10 := by
      intro d hd
      exact Nat.digits_lt_base (by norm_num) (List.mem_reverse.mp (hr ▸ hd))
    have hr10 : r < 10 := hmem r (by simp)
    have hstr : pyStrNat n = (r :: rs).map Nat.digitChar := by
      unfold pyStrNat
      rw [if_neg h0, ← List.map_reverse, hr]
    rw [hstr]
    simp only [List.map_cons, pyIntDigits, digitChar_isDigit hr10, if_true,
      digVal_digitChar hr10]
    rw [pyIntDigitsGo_digits rs (fun x hx => hmem x (by simp [hx])) r]
    congr 1
    have hfold : (r :: rs).foldl (fun a d => 10 * a + d) 0 = n := by
      rw [← hr, foldl_reverse_ofDigits]
      simp [Nat.ofDigits_digits]
    simpa using hfold

theorem splitOnCh_cons (sep c : Char) (cs : List Char) (g : List Char)
    (gs : List (List Char)) (h : splitOnCh sep cs = g :: gs) :
    splitOnCh sep (c :: cs) = if c = sep then [] :: g :: gs else (c :: g) :: gs := by
  have heq : splitOnCh sep (c :: cs) =
      match splitOnCh sep cs with
      | [] => [[]]
      | g2 :: gs2 => if c = sep then [] :: g2 :: gs2 else (c :: g2) :: gs2 := rfl
  rw [heq, h]

theorem splitOnCh_ne_nil (sep : Char) (s : List Char) : splitOnCh sep s ≠ [] := by
  induction s with
  | nil => simp [splitOnCh]
  | cons c cs ih =>
    rcases h : splitOnCh sep cs with _ | ⟨g, gs⟩
    · exact absurd h ih
    · rw [splitOnCh_cons sep c cs g gs h]
      split <;> simp

theorem splitOnCh_of_not_mem (sep : Char) (s : List Char) (h : sep ∉ s) :
    splitOnCh sep s = [s] := by
  induction s with
  | nil => rfl
  | cons c cs ih =>
    have hc : ¬ c = sep := by rintro rfl; exact h (by simp)
    have ih2 := ih (fun hm => h (by simp [hm]))
    rw [splitOnCh_cons sep c cs cs [] ih2, if_neg hc]

theorem splitOnCh_append (sep : Char) (xs ys : List Char) (hx : sep ∉ xs)
    (g : List Char) (gs : List (List Char)) (hy : splitOnCh sep ys = g :: gs) :
    splitOnCh sep (xs ++ ys) = (xs ++ g) :: gs := by
  induction xs with
  | nil => simpa using hy
  | cons c cs ih =>
    have hc : ¬ c = sep := by rintro rfl; exact hx (by simp)
    have ih2 := ih (fun hm => hx (by simp [hm]))
    rw [List.cons_append, splitOnCh_cons sep c (cs ++ ys) (cs ++ g) gs ih2, if_neg hc,
      List.cons_append]

theorem length_splitOnCh (sep : Char) (s : List Char) :
    (splitOnCh sep s).length = s.count sep + 1 := by
  induction s with
  | nil => rfl
  | cons c cs ih =>
    rcases h : splitOnCh sep cs with _ | ⟨g, gs⟩
    · exact absurd h (splitOnCh_ne_nil sep cs)
    · rw [h] at ih
      rw [splitOnCh_cons sep c cs g gs h]
      by_cases hc : c = sep
      · subst hc
        rw [if_pos rfl]
        simp only [List.length_cons] at ih ⊢
        rw [List.count_cons_self]
        omega
      · rw [if_neg hc]
        simp only [List.length_cons] at ih ⊢
        rw [List.count_cons_of_ne (fun h2 => hc h2.symm)]
        omega

theorem pyInt_pyStrNat (n : Nat) : pyInt (pyStrNat n) = some (n : Int) := by
  have hdig := mem_pyStrNat_isDigit n
  obtain ⟨c, cs, hc⟩ := List.exists_cons_of_ne_nil (pyStrNat_ne_nil n)
  have hcdig : c.isDigit = true := hdig c (by rw [hc]; simp)
  unfold pyInt
  rw [pyStrip_of_no_ws _ (fun x hx => isPyWs_of_isDigit (hdig x hx)), hc]
  simp only [if_neg (ne_of_isDigit hcdig '+' (by decide)),
    if_neg (ne_of_isDigit hcdig '-' (by decide))]
  rw [← hc, pyIntDigits_pyStrNat]
  rfl

/-! ## Helper lemmas: flag rendering -/

theorem intercalate_cons_eq_flatMap (sep : List Char) (x : List Char)
    (l : List (List Char)) :
    List.intercalate sep (x :: l) = x ++ l.flatMap fun y => sep ++ y := by
  induction l generalizing x with
  | nil => simp [List.intercalate]
  | cons y ys ih =>
    have h1 : List.intercalate sep (x :: y :: ys) =
        x ++ sep ++ List.intercalate sep (y :: ys) := by
      simp [List.intercalate, List.intersperse_cons_cons]
    rw [h1, ih y]
    simp [List.append_assoc]

/-! ## Helper lemmas: the watch loop -/

theorem watchStep_finish_code (st : SlurmJobStatus) (sub : Bool) (e p : Nat)
    (c : Int) (b : Bool) (h : watchStep st sub e p = (.finish c, b)) :
    c = 0 ∨ c = -1 := by
  unfold watchStep at h
  split_ifs at h <;> simp_all

theorem watchJob_code (script : List (SlurmJobStatus × Nat)) (start p : Nat)
    (sub : Bool) (c : Int) (h : watchJob script start p sub = some c) :
    c = 0 ∨ c = -1 := by
  induction script generalizing sub with
  | nil => exact absurd h (by simp [watchJob])
  | cons x rest ih =>
    obtain ⟨st, t⟩ := x
    rw [watchJob] at h
    rcases hw : watchStep st sub (t - start) p with ⟨a, sub2⟩
    rw [hw] at h
    cases a with
    | finish code =>
      simp only [Option.some.injEq] at h
      subst h
      exact watchStep_finish_code st sub (t - start) p _ sub2 hw
    | repoll => exact ih sub2 h
    | sleepRepoll => exact ih sub2 h

theorem pyStrInt_natCast (n : Nat) : pyStrInt (n : Int) = pyStrNat n := rfl

theorem flatMap_map_eq {α β γ : Type _} (f : α → β) (g : β → List γ) (l : List α) :
    (l.map f).flatMap g = l.flatMap fun x => g (f x) := by
  induction l with
  | nil => rfl
  | cons a t ih => simp only [List.map_cons, List.flatMap_cons, ih]

theorem pyStrNat_eval_7 : pyStrNat 7 = "7".toList := by
  unfold pyStrNat
  norm_num [Nat.digits_def', Nat.digitChar]

theorem pyStrNat_eval_123 : pyStrNat 123 = "123".toList := by
  unfold pyStrNat
  norm_num [Nat.digits_def', Nat.digitChar]

/-! ## Claims -/

/-- C1: the claim states that the kill operation issues exactly the command
`scancel <jobId>`.  The code's f-string `f"scancel ${jobid}"` renders a
literal `$` before the job id, so at job id 123 the command is
`scancel $123`, not `scancel 123`: the claim describes the intent, the code
has a slip. -/
theorem C1_kill_command_has_stray_dollar :
    kill_command 123 = "scancel $123".toList ∧
      kill_command 123 ≠ "scancel 123".toList := by
  have h : kill_command 123 = "scancel $123".toList := by
    show "scancel $".toList ++ pyStrInt (Int.ofNat 123) = _
    rw [show pyStrInt (Int.ofNat 123) = pyStrNat 123 from rfl, pyStrNat_eval_123]
    decide
  exact ⟨h, by rw [h]; decide⟩

/-- C2: the status-token mapping is a total function on strings; it maps
`PENDING`, `COMPLETED`, `PREEMPTED`, `FAILED`, `RUNNING` to the matching
`SlurmJobStatus` by case-sensitive exact comparison, and every other string
(for example `BOOT_FAIL`) to `UNKNOWN`. -/
theorem C2_statusTokenMap_total_mapping :
    statusTokenMap "PENDING".toList = .PENDING ∧
    statusTokenMap "COMPLETED".toList = .COMPLETED ∧
    statusTokenMap "PREEMPTED".toList = .PREEMPTED ∧
    statusTokenMap "FAILED".toList = .FAILED ∧
    statusTokenMap "RUNNING".toList = .RUNNING ∧
    statusTokenMap "BOOT_FAIL".toList = .UNKNOWN ∧
    (∀ s : List Char, s ≠ "PENDING".toList → s ≠ "COMPLETED".toList →
      s ≠ "PREEMPTED".toList → s ≠ "FAILED".toList → s ≠ "RUNNING".toList →
      statusTokenMap s = .UNKNOWN) := by
  refine ⟨by decide, by decide, by decide, by decide, by decide, by decide, ?_⟩
  intro s h1 h2 h3 h4 h5
  unfold statusTokenMap
  rw [if_neg h1, if_neg h2, if_neg h3, if_neg h4, if_neg h5]

/-- C2 witness: the general clause of `C2_statusTokenMap_total_mapping`
applied to the concrete unrecognised (lowercase) token `pending`. -/
theorem C2_statusTokenMap_witness :
    statusTokenMap "pending".toList = .UNKNOWN :=
  C2_statusTokenMap_total_mapping.2.2.2.2.2.2 "pending".toList
    (by decide) (by decide) (by decide) (by decide) (by decide)

/-- C3: `status` never raises: a non-zero remote exit status yields
`UNDEFINED` whatever stdout holds, and a zero exit status with fewer than
two whitespace tokens on stdout also yields `UNDEFINED`. -/
theorem C3_status_absorbs_failures :
    (∀ r : RemoteCommandResult, r.exit_status ≠ 0 →
      statusOfResult r = .UNDEFINED) ∧
    (∀ r : RemoteCommandResult, r.exit_status = 0 →
      (pySplitWs r.stdout).length < 2 → statusOfResult r = .UNDEFINED) := by
  constructor
  · intro r h
    unfold statusOfResult
    rw [if_pos h]
  · intro r h hlen
    unfold statusOfResult
    rw [if_neg (fun hh => hh h)]
    split
    · rename_i status ec rest heq
      rw [heq] at hlen
      simp only [List.length_cons] at hlen
      omega
    · rfl

/-- C3 witness: both clauses of `C3_status_absorbs_failures` at concrete
remote results: exit status 1 with a well-formed stdout, and exit status 0
with a one-token stdout. -/
theorem C3_status_witness :
    statusOfResult ⟨1, "COMPLETED 0".toList, []⟩ = .UNDEFINED ∧
    statusOfResult ⟨0, "COMPLETED".toList, []⟩ = .UNDEFINED :=
  ⟨C3_status_absorbs_failures.1 ⟨1, "COMPLETED 0".toList, []⟩ (by decide),
   C3_status_absorbs_failures.2 ⟨0, "COMPLETED".toList, []⟩ (by decide) (by decide)⟩

/-- C4: the infrastructure-PID codec round-trips: for every host without a
colon and every job id `j ≥ 0`, parsing the encoded `"<host>:<j>"` returns
exactly `(host, j)`. -/
theorem C4_pid_round_trip (host : List Char) (j : Int)
    (hhost : ':' ∉ host) (hj : 0 ≤ j) :
    parse_infrastructure_pid (get_infrastructure_pid host j) = some (host, j) := by
  obtain ⟨n, rfl⟩ := Int.eq_ofNat_of_zero_le hj
  have hcolon : ':' ∉ pyStrNat n := fun hm =>
    absurd (mem_pyStrNat_isDigit n ':' hm) (by decide)
  have h1 : splitOnCh ':' (pyStrNat n) = [pyStrNat n] :=
    splitOnCh_of_not_mem ':' (pyStrNat n) hcolon
  have h2 : splitOnCh ':' (':' :: pyStrNat n) = [[], pyStrNat n] := by
    rw [splitOnCh_cons ':' ':' (pyStrNat n) (pyStrNat n) [] h1, if_pos rfl]
  have h3 : splitOnCh ':' (host ++ ':' :: pyStrNat n) = [host, pyStrNat n] := by
    have := splitOnCh_append ':' host (':' :: pyStrNat n) hhost [] [pyStrNat n] h2
    simpa using this
  unfold parse_infrastructure_pid get_infrastructure_pid
  rw [pyStrInt_natCast, h3]
  show (pyInt (pyStrNat n)).map (fun m => (host, m)) = some (host, (n : Int))
  rw [pyInt_pyStrNat]
  rfl

/-- C4 witness: `C4_pid_round_trip` at host `host` and job id 123. -/
theorem C4_pid_round_trip_witness :
    ':' ∉ "host".toList ∧ (0 : Int) ≤ 123 ∧
    parse_infrastructure_pid (get_infrastructure_pid "host".toList 123) =
      some ("host".toList, 123) :=
  ⟨by decide, by decide, C4_pid_round_trip "host".toList 123 (by decide) (by decide)⟩

/-- C5: PID decoding fails (yields no pair) when the input does not contain
exactly one `:`, or when the segment after the single `:` is not an
integer; in particular on `a:b:c`, `noColon`, and `host:notanumber`. -/
theorem C5_pid_decode_failures :
    (∀ s : List Char, s.count ':' ≠ 1 → parse_infrastructure_pid s = none) ∧
    (∀ s h p : List Char, splitOnCh ':' s = [h, p] → pyInt p = none →
      parse_infrastructure_pid s = none) ∧
    parse_infrastructure_pid "a:b:c".toList = none ∧
    parse_infrastructure_pid "noColon".toList = none ∧
    parse_infrastructure_pid "host:notanumber".toList = none := by
  refine ⟨?_, ?_, by decide, by decide, by decide⟩
  · intro s hcount
    have hlen := length_splitOnCh ':' s
    unfold parse_infrastructure_pid
    split
    · rename_i hostname pid heq
      rw [heq] at hlen
      simp only [List.length_cons, List.length_nil] at hlen
      exact absurd (by omega) hcount
    · rfl
  · intro s h p heq hnone
    unfold parse_infrastructure_pid
    rw [heq]
    show (pyInt p).map (fun m => (h, m)) = none
    rw [hnone]
    rfl

/-- C5 witness: the two general clauses of `C5_pid_decode_failures` at
concrete inputs: `x::y` has two colons, and `q:zz` has a non-integer
trailing segment. -/
theorem C5_pid_decode_witness :
    parse_infrastructure_pid "x::y".toList = none ∧
    parse_infrastructure_pid "q:zz".toList = none :=
  ⟨C5_pid_decode_failures.1 "x::y".toList (by decide),
   C5_pid_decode_failures.2.1 "q:zz".toList "q".toList "zz".toList
     (by decide) (by decide)⟩

/-- C6: the rendered submit command is `sbatch --parsable` followed by one
flag per option in insertion order, `--key` for an absent value and
`--key=value` otherwise; in particular the options
`[nodes ↦ 1, parsable ↦ None]` render as
`sbatch --parsable --nodes=1 --parsable`. -/
theorem C6_submit_command_rendering :
    (∀ opts : List (List Char × Option (List Char)),
      submit_command opts = "sbatch --parsable".toList ++
        opts.flatMap fun kv => ' ' ::
          match kv.2 with
          | none => "--".toList ++ kv.1
          | some v => "--".toList ++ kv.1 ++ "=".toList ++ v) ∧
    submit_command [("nodes".toList, some "1".toList), ("parsable".toList, none)] =
      "sbatch --parsable --nodes=1 --parsable".toList := by
  have hgen : ∀ opts : List (List Char × Option (List Char)),
      submit_command opts = "sbatch --parsable".toList ++
        opts.flatMap fun kv => ' ' ::
          match kv.2 with
          | none => "--".toList ++ kv.1
          | some v => "--".toList ++ kv.1 ++ "=".toList ++ v := by
    intro opts
    simp only [submit_command]
    rw [intercalate_cons_eq_flatMap, List.flatMap_cons, flatMap_map_eq,
      ← List.append_assoc]
    rfl
  exact ⟨hgen, by rw [hgen]; decide⟩

/-- C7: submit parses the whitespace-trimmed stdout of the remote command as
an integer job id and returns it, and fails (raises, modelled as `none`)
exactly when the trimmed stdout is not a valid integer. -/
theorem C7_submit_parses_trimmed_stdout :
    (∀ (r : RemoteCommandResult) (n : Nat), pyStrip r.stdout = pyStrNat n →
      submitResult r = some (n : Int)) ∧
    (∀ r : RemoteCommandResult, pyInt (pyStrip r.stdout) = none →
      submitResult r = none) := by
  constructor
  · intro r n h
    unfold submitResult
    rw [h, pyInt_pyStrNat]
  · intro r h
    unfold submitResult
    exact h

/-- C7 witness: both clauses of `C7_submit_parses_trimmed_stdout` at
concrete remote results: stdout `"  7\n"` trims to the decimal `7`, and
stdout `"boom"` is not an integer. -/
theorem C7_submit_witness :
    pyStrip "  7\n".toList = pyStrNat 7 ∧
    submitResult ⟨0, "  7\n".toList, []⟩ = some 7 ∧
    submitResult ⟨1, "boom".toList, []⟩ = none := by
  have h : pyStrip "  7\n".toList = pyStrNat 7 := by
    rw [pyStrNat_eval_7]
    decide
  exact ⟨h, C7_submit_parses_trimmed_stdout.1 ⟨0, "  7\n".toList, []⟩ 7 h,
    C7_submit_parses_trimmed_stdout.2 ⟨1, "boom".toList, []⟩ (by decide)⟩

/-- C8: the submission grace window: a poll that sees `UNDEFINED` before the
job was ever seen re-polls immediately (no sleep, no failure recorded) while
the elapsed time is below the polling interval, and terminates with code -1
once the elapsed time reaches the interval; the scripted sequence
`[UNDEFINED, UNDEFINED, UNDEFINED]` whose elapsed time outgrows the window
yields -1. -/
theorem C8_grace_window :
    (∀ e p : Nat, e < p →
      watchStep .UNDEFINED false e p = (.repoll, false)) ∧
    (∀ e p : Nat, p ≤ e →
      watchStep .UNDEFINED false e p = (.finish (-1), false)) ∧
    watchJob [(.UNDEFINED, 0), (.UNDEFINED, 10), (.UNDEFINED, 35)] 0 30 false =
      some (-1) := by
  refine ⟨?_, ?_, by decide⟩
  · intro e p h
    unfold watchStep
    rw [if_pos ⟨rfl, rfl⟩, if_pos h]
  · intro e p h
    unfold watchStep
    rw [if_pos ⟨rfl, rfl⟩, if_neg (Nat.not_lt.mpr h)]

/-- C8 witness: `C8_grace_window` at elapsed times 0 (inside a 30 second
window) and 35 (outside it). -/
theorem C8_grace_witness :
    (0 : Nat) < 30 ∧ watchStep .UNDEFINED false 0 30 = (.repoll, false) ∧
    (30 : Nat) ≤ 35 ∧ watchStep .UNDEFINED false 35 30 = (.finish (-1), false) :=
  ⟨by decide, C8_grace_window.1 0 30 (by decide), by decide,
   C8_grace_window.2.1 35 30 (by decide)⟩

/-- C9: terminal reduction of the monitor: `UNDEFINED` after the job was
seen and `COMPLETED` terminate with 0, `FAILED` terminates with -1,
`PENDING` / `RUNNING` / `PREEMPTED` / `UNKNOWN` sleep one interval and
re-poll; the scripted runs behave as claimed, and the watch never returns an
exit code other than 0 or -1. -/
theorem C9_terminal_reduction :
    (∀ e p : Nat, watchStep .UNDEFINED true e p = (.finish 0, true)) ∧
    (∀ (sub : Bool) (e p : Nat),
      watchStep .COMPLETED sub e p = (.finish 0, true)) ∧
    (∀ (sub : Bool) (e p : Nat),
      watchStep .FAILED sub e p = (.finish (-1), true)) ∧
    (∀ (st : SlurmJobStatus) (sub : Bool) (e p : Nat),
      st = .PENDING ∨ st = .RUNNING ∨ st = .PREEMPTED ∨ st = .UNKNOWN →
      watchStep st sub e p = (.sleepRepoll, true)) ∧
    watchJob [(.PENDING, 0), (.RUNNING, 30), (.COMPLETED, 60)] 0 30 false =
      some 0 ∧
    watchJob [(.PENDING, 0), (.RUNNING, 30), (.FAILED, 60)] 0 30 false =
      some (-1) ∧
    watchJob [(.RUNNING, 0), (.UNDEFINED, 30)] 0 30 false = some 0 ∧
    (∀ (script : List (SlurmJobStatus × Nat)) (start p : Nat) (sub : Bool)
      (c : Int), watchJob script start p sub = some c → c = 0 ∨ c = -1) := by
  refine ⟨?_, ?_, ?_, ?_, by decide, by decide, by decide, watchJob_code⟩
  · intro e p
    simp [watchStep]
  · intro sub e p
    simp [watchStep]
  · intro sub e p
    simp [watchStep]
  · rintro st sub e p (rfl | rfl | rfl | rfl) <;> simp [watchStep]

/-- C9 witness: the hypothesis-bearing clauses of `C9_terminal_reduction`:
a first poll of `PENDING` sleeps and re-polls, and a watch that returned
exit code 0 satisfies the 0-or-minus-one disjunction. -/
theorem C9_terminal_witness :
    watchStep .PENDING false 0 30 = (.sleepRepoll, true) ∧
    ((0 : Int) = 0 ∨ (0 : Int) = -1) :=
  ⟨C9_terminal_reduction.2.2.2.1 .PENDING false 0 30 (Or.inl rfl),
   C9_terminal_reduction.2.2.2.2.2.2.2 [(.COMPLETED, 0)] 0 30 false 0 (by decide)⟩

/-- C10: the job id submit returns is a function of the remote command's
stdout alone: two remote results with the same stdout produce the same
outcome, whatever their exit statuses and stderr; in particular a submit
command that exits non-zero but prints `42` is reported as job id 42. -/
theorem C10_submit_ignores_exit_status :
    (∀ r1 r2 : RemoteCommandResult, r1.stdout = r2.stdout →
      submitResult r1 = submitResult r2) ∧
    submitResult ⟨1, "42".toList, "error".toList⟩ = some 42 := by
  constructor
  · intro r1 r2 h
    unfold submitResult
    rw [h]
  · decide

/-- C10 witness: `C10_submit_ignores_exit_status` at two concrete results
sharing stdout `"42"` but differing in exit status and stderr. -/
theorem C10_submit_witness :
    submitResult ⟨0, "42".toList, []⟩ =
      submitResult ⟨77, "42".toList, "junk".toList⟩ :=
  C10_submit_ignores_exit_status.1 ⟨0, "42".toList, []⟩
    ⟨77, "42".toList, "junk".toList⟩ rfl
